import Mathlib

/-!
A formal model of the `db-json-exchange` definition-file format: the data
model of `src/lib.rs` with its canonical JSON wire form (the serde derive
encoding), together with the load-time validation, expression evaluation
and transaction execution semantics that the crate's documentation and
specification describe.
-/

namespace DbJson

/-- Model of a JSON number as held by `serde_json::Number`: an integer
(`u64`/`i64` in serde_json, modelled as an unbounded `Int`) or a finite
double.  serde_json can only hold finite floats; a finite `f64` is
modelled by its exact rational value, which is faithful because distinct
finite floats have distinct rational values and serde_json prints/parses
every finite `f64` exactly (shortest round-tripping representation). -/
inductive JNum where
  | int (i : Int)
  | float (q : Rat)

/-- Model of a `serde_json::Value` tree.  An object is represented by its
ordered list of entries; serde_json's map type keeps entries ordered by
key, and the encoders below reproduce exactly the entry sequence serde
emits for each Rust value. -/
inductive Json where
  | null
  | bool (b : Bool)
  | num (n : JNum)
  | str (s : String)
  | arr (xs : List Json)
  | obj (fields : List (String × Json))

/-- Model of an `f64`: every finite `f64` is represented by its exact
rational value; the non-finite values are explicit constructors. -/
inductive F64 where
  | finite (q : Rat)
  | nan
  | inf
  | neginf

/-- `DataType` (src/lib.rs 86-104): the actual inner type of a column.
`isize` bounds are modelled as `Int` and `usize` bounds as `Nat` (machine
width is not modelled; no arithmetic overflows these here). -/
inductive DataType where
  | bool
  | int (upper lower : Int)
  | double (upper lower : F64)
  | string (min_chars max_chars : Nat)

/-- `Type` (src/lib.rs 75-83): a column's data type plus the `unique` and
`not_null` flags.  Named `Ty` because `Type` is a Lean universe. -/
structure Ty where
  data_type : DataType
  unique : Bool
  not_null : Bool

/-- `Column` (src/lib.rs 53-66): a name and a `Ty`; the Rust field is
`_type`, carrying `#[serde(rename = "type", flatten)]`. -/
structure Column where
  name : String
  _type : Ty

/-- `Table` (src/lib.rs 38-49). -/
structure Table where
  name : String
  columns : List Column

/-- `Database` (src/lib.rs 21-32). -/
structure Database where
  name : String
  tables : List Table

/-- `DatabaseReference` (src/lib.rs 121-124). -/
structure DatabaseReference where
  database : String

/-- `TableReference` (src/lib.rs 175-178). -/
structure TableReference where
  table : String

/-- `ColumnReference` (src/lib.rs 215-220); the `table` field carries
`#[serde(flatten)]`. -/
structure ColumnReference where
  table : TableReference
  column : String

/-- `Constant` (src/lib.rs 207-213): note `Int` holds a `usize`
(modelled as `Nat`) while `Double` holds an `f64`. -/
inductive Constant where
  | bool (b : Bool)
  | int (n : Nat)
  | double (f : F64)
  | string (s : String)

/-- `Expression` (src/lib.rs 180-205): the recursive expression tree. -/
inductive Expression where
  | constant (c : Constant)
  | columnReference (r : ColumnReference)
  | not (e : Expression)
  | notNull (casted default : Expression)
  | equals (left right : Expression)
  | lessThan (left right : Expression)
  | greaterThan (left right : Expression)
  | lessThanOrEqual (left right : Expression)
  | greaterThanOrEqual (left right : Expression)
  | plus (left right : Expression)
  | subtract (left right : Expression)
  | divide (left right : Expression)
  | multiply (left right : Expression)
  | modulo (left right : Expression)
  | and (left right : Expression)
  | or (left right : Expression)
  | bitAnd (left right : Expression)
  | bitOr (left right : Expression)
  | bitXOr (left right : Expression)
  | contains (left right : Expression)
  | startsWith (left right : Expression)
  | endsWith (left right : Expression)
  | conditional (condition true_path false_path : Expression)

/-- `NoOp` (src/lib.rs 135-137): an empty struct. -/
structure NoOp where

/-- `Select` (src/lib.rs 139-146); both `Option` fields carry
`#[serde(skip_serializing_if = "Option::is_none")]`. -/
structure Select where
  table : TableReference
  execution_condition : Option Expression
  filter : Option Expression

/-- `Delete` (src/lib.rs 148-155). -/
structure Delete where
  table : TableReference
  execution_condition : Option Expression
  filter : Option Expression

/-- `Insert` (src/lib.rs 157-163): `data` is `Vec<Map<String, Value>>`,
each row map modelled as its ordered entry list of raw JSON values. -/
structure Insert where
  table : TableReference
  execution_condition : Option Expression
  data : List (List (String × Json))

/-- `Update` (src/lib.rs 165-173): `data` is a single
`Map<String, Value>`. -/
structure Update where
  table : TableReference
  execution_condition : Option Expression
  filter : Option Expression
  data : List (String × Json)

/-- `Statement` (src/lib.rs 126-133): an externally tagged enum of
newtype variants. -/
inductive Statement where
  | noOp (v : NoOp)
  | select (v : Select)
  | delete (v : Delete)
  | insert (v : Insert)
  | update (v : Update)

/-- `Transaction` (src/lib.rs 113-119). -/
structure Transaction where
  database : DatabaseReference
  statements : List Statement

/-- `DefinitionFile` (src/lib.rs 10-16): the root structure. -/
structure DefinitionFile where
  databases : List Database
  transactions : List Transaction

/-! ## The canonical wire form: encoding

Each `encodeX` function reproduces the `serde_json::Value` tree that the
serde derive `Serialize` implementation in `src/lib.rs` produces for the
Rust value `X`.  Struct fields are emitted in declaration order; a
`#[serde(flatten)]` field contributes its own fields at the position of
the flattened field; `Option` fields annotated
`skip_serializing_if = "Option::is_none"` are omitted entirely when
`None`; enums without tag attributes are externally tagged
(`{"Variant": payload}`); `DataType` carries
`#[serde(tag = "type", content = "bounds")]` (adjacent tagging, the unit
variant `Bool` contributing no `bounds` entry).  serde_json serializes a
non-finite `f64` as `null`. -/

/-- Encode an `f64` the way serde_json serializes it: a finite float
exactly, a non-finite float as `null`. -/
def F64.encode : F64 → Json
  | .finite q => .num (.float q)
  | _ => .null

/-- Encode `DataType` (adjacently tagged: `tag = "type"`,
`content = "bounds"`; struct-variant fields in declaration order). -/
def encodeDataType : DataType → Json
  | .bool => .obj [("type", .str "Bool")]
  | .int u l =>
      .obj [("type", .str "Int"),
            ("bounds", .obj [("upper", .num (.int u)), ("lower", .num (.int l))])]
  | .double u l =>
      .obj [("type", .str "Double"),
            ("bounds", .obj [("upper", u.encode), ("lower", l.encode)])]
  | .string mn mx =>
      .obj [("type", .str "String"),
            ("bounds", .obj [("min_chars", .num (.int mn)), ("max_chars", .num (.int mx))])]

/-- The entries `Ty` contributes to a map: its own fields in declaration
order (`data_type`, `unique`, `not_null`). -/
def encodeTyFields (t : Ty) : List (String × Json) :=
  [("data_type", encodeDataType t.data_type),
   ("unique", .bool t.unique),
   ("not_null", .bool t.not_null)]

/-- Encode `Column`: `name`, then the flattened fields of its `Ty`
(`#[serde(flatten)]` merges them at the same level; the
`rename = "type"` on the flattened field has no effect under serde's
flatten, since the field's own name never appears). -/
def encodeColumn (c : Column) : Json :=
  .obj (("name", .str c.name) :: encodeTyFields c._type)

/-- Encode `Table`. -/
def encodeTable (t : Table) : Json :=
  .obj [("name", .str t.name), ("columns", .arr (t.columns.map encodeColumn))]

/-- Encode `Database`. -/
def encodeDatabase (d : Database) : Json :=
  .obj [("name", .str d.name), ("tables", .arr (d.tables.map encodeTable))]

/-- Encode `Constant` (externally tagged newtype variants; `Int` is a
`usize`, `Double` an `f64`). -/
def encodeConstant : Constant → Json
  | .bool b => .obj [("Bool", .bool b)]
  | .int n => .obj [("Int", .num (.int n))]
  | .double f => .obj [("Double", f.encode)]
  | .string s => .obj [("String", .str s)]

/-- Encode `TableReference`. -/
def encodeTableReference (r : TableReference) : Json :=
  .obj [("table", .str r.table)]

/-- Encode `ColumnReference`: the `TableReference` is flattened, so its
`table` entry sits beside `column`. -/
def encodeColumnReference (r : ColumnReference) : Json :=
  .obj [("table", .str r.table.table), ("column", .str r.column)]

/-- Encode `Expression` (externally tagged; struct-variant fields in
declaration order). -/
def encodeExpression : Expression → Json
  | .constant c => .obj [("Constant", encodeConstant c)]
  | .columnReference r => .obj [("ColumnReference", encodeColumnReference r)]
  | .not e => .obj [("Not", encodeExpression e)]
  | .notNull c d =>
      .obj [("NotNull", .obj [("casted", encodeExpression c), ("default", encodeExpression d)])]
  | .equals l r => .obj [("Equals", .obj [("left", encodeExpression l), ("right", encodeExpression r)])]
  | .lessThan l r => .obj [("LessThan", .obj [("left", encodeExpression l), ("right", encodeExpression r)])]
  | .greaterThan l r => .obj [("GreaterThan", .obj [("left", encodeExpression l), ("right", encodeExpression r)])]
  | .lessThanOrEqual l r => .obj [("LessThanOrEqual", .obj [("left", encodeExpression l), ("right", encodeExpression r)])]
  | .greaterThanOrEqual l r => .obj [("GreaterThanOrEqual", .obj [("left", encodeExpression l), ("right", encodeExpression r)])]
  | .plus l r => .obj [("Plus", .obj [("left", encodeExpression l), ("right", encodeExpression r)])]
  | .subtract l r => .obj [("Subtract", .obj [("left", encodeExpression l), ("right", encodeExpression r)])]
  | .divide l r => .obj [("Divide", .obj [("left", encodeExpression l), ("right", encodeExpression r)])]
  | .multiply l r => .obj [("Multiply", .obj [("left", encodeExpression l), ("right", encodeExpression r)])]
  | .modulo l r => .obj [("Modulo", .obj [("left", encodeExpression l), ("right", encodeExpression r)])]
  | .and l r => .obj [("And", .obj [("left", encodeExpression l), ("right", encodeExpression r)])]
  | .or l r => .obj [("Or", .obj [("left", encodeExpression l), ("right", encodeExpression r)])]
  | .bitAnd l r => .obj [("BitAnd", .obj [("left", encodeExpression l), ("right", encodeExpression r)])]
  | .bitOr l r => .obj [("BitOr", .obj [("left", encodeExpression l), ("right", encodeExpression r)])]
  | .bitXOr l r => .obj [("BitXOr", .obj [("left", encodeExpression l), ("right", encodeExpression r)])]
  | .contains l r => .obj [("Contains", .obj [("left", encodeExpression l), ("right", encodeExpression r)])]
  | .startsWith l r => .obj [("StartsWith", .obj [("left", encodeExpression l), ("right", encodeExpression r)])]
  | .endsWith l r => .obj [("EndsWith", .obj [("left", encodeExpression l), ("right", encodeExpression r)])]
  | .conditional c t f =>
      .obj [("Conditional",
             .obj [("condition", encodeExpression c),
                   ("true_path", encodeExpression t),
                   ("false_path", encodeExpression f)])]
/-- The entries an `Option` expression field contributes: none when
`None` (`skip_serializing_if = "Option::is_none"`). -/
def encodeOptExpr (field : String) : Option Expression → List (String × Json)
  | none => []
  | some e => [(field, encodeExpression e)]

/-- Encode `Select`. -/
def encodeSelect (s : Select) : Json :=
  .obj (("table", encodeTableReference s.table)
        :: (encodeOptExpr "execution_condition" s.execution_condition
            ++ encodeOptExpr "filter" s.filter))

/-- Encode `Delete`. -/
def encodeDelete (s : Delete) : Json :=
  .obj (("table", encodeTableReference s.table)
        :: (encodeOptExpr "execution_condition" s.execution_condition
            ++ encodeOptExpr "filter" s.filter))

/-- Encode `Insert`: each row map serializes as the JSON object of its
entries, the values being raw `serde_json::Value`s (serialized as
themselves). -/
def encodeInsert (s : Insert) : Json :=
  .obj (("table", encodeTableReference s.table)
        :: (encodeOptExpr "execution_condition" s.execution_condition
            ++ [("data", .arr (s.data.map Json.obj))]))

/-- Encode `Update`. -/
def encodeUpdate (s : Update) : Json :=
  .obj (("table", encodeTableReference s.table)
        :: (encodeOptExpr "execution_condition" s.execution_condition
            ++ encodeOptExpr "filter" s.filter
            ++ [("data", .obj s.data)]))

/-- Encode `Statement` (externally tagged newtype variants; the empty
struct `NoOp` serializes as an empty map). -/
def encodeStatement : Statement → Json
  | .noOp _ => .obj [("NoOp", .obj [])]
  | .select v => .obj [("Select", encodeSelect v)]
  | .delete v => .obj [("Delete", encodeDelete v)]
  | .insert v => .obj [("Insert", encodeInsert v)]
  | .update v => .obj [("Update", encodeUpdate v)]

/-- Encode `Transaction`. -/
def encodeTransaction (t : Transaction) : Json :=
  .obj [("database", .obj [("database", .str t.database.database)]),
        ("statements", .arr (t.statements.map encodeStatement))]

/-- Encode `DefinitionFile`: the canonical wire form of the whole file. -/
def encodeDefinitionFile (f : DefinitionFile) : Json :=
  .obj [("databases", .arr (f.databases.map encodeDatabase)),
        ("transactions", .arr (f.transactions.map encodeTransaction))]

/-! ## The canonical wire form: decoding

Each `decodeX` function models the serde derive `Deserialize`
implementation, on `serde_json::Value` trees.  Struct fields are found by
key lookup (serde accepts fields in any order and by default ignores
unknown fields); a missing field is an error unless the field is an
`Option`, which defaults to `none`; an externally tagged enum requires a
map with exactly one entry, whose key names the variant.  The one
divergence from serde: serde reports an error on a duplicate struct
field, while lookup takes the first occurrence — the encoders never emit
duplicates, so no canonical value is affected. -/

/-- Look a field up in a JSON object (first occurrence). -/
def Json.get? (j : Json) (k : String) : Option Json :=
  match j with
  | .obj fields => fields.lookup k
  | _ => none

/-- Decode a `bool`. -/
def decodeBool : Json → Option Bool
  | .bool b => some b
  | _ => none

/-- Decode a `String`. -/
def decodeStr : Json → Option String
  | .str s => some s
  | _ => none

/-- Decode a `usize`: serde accepts a JSON integer that is not negative
(machine width is not modelled: `Nat` stands for `usize`); a float or a
negative integer is an error. -/
def decodeUsize : Json → Option Nat
  | .num (.int i) => if 0 ≤ i then some i.toNat else none
  | _ => none

/-- Decode an `isize` (modelled as `Int`; machine width not modelled):
any JSON integer, but not a float. -/
def decodeIsize : Json → Option Int
  | .num (.int i) => some i
  | _ => none

/-- Decode an `f64`: a float number deserializes exactly, an integer
number converts; anything else — in particular `null`, which is how
serde_json serializes a non-finite float — is an error. -/
def decodeF64 : Json → Option F64
  | .num (.float q) => some (.finite q)
  | .num (.int i) => some (.finite (i : Rat))
  | _ => none

/-- Decode `DataType` (adjacently tagged by `"type"`/`"bounds"`). -/
def decodeDataType (j : Json) : Option DataType := do
  match ← j.get? "type" with
  | .str "Bool" => some .bool
  | .str "Int" => do
      let b ← j.get? "bounds"
      let u ← decodeIsize (← b.get? "upper")
      let l ← decodeIsize (← b.get? "lower")
      some (.int u l)
  | .str "Double" => do
      let b ← j.get? "bounds"
      let u ← decodeF64 (← b.get? "upper")
      let l ← decodeF64 (← b.get? "lower")
      some (.double u l)
  | .str "String" => do
      let b ← j.get? "bounds"
      let mn ← decodeUsize (← b.get? "min_chars")
      let mx ← decodeUsize (← b.get? "max_chars")
      some (.string mn mx)
  | _ => none

/-- Decode the flattened `Ty` fields out of the surrounding map. -/
def decodeTy (j : Json) : Option Ty := do
  let dt ← decodeDataType (← j.get? "data_type")
  let u ← decodeBool (← j.get? "unique")
  let nn ← decodeBool (← j.get? "not_null")
  some ⟨dt, u, nn⟩

/-- Decode `Column`: `name` plus the `Ty` fields flattened beside it. -/
def decodeColumn (j : Json) : Option Column := do
  let n ← decodeStr (← j.get? "name")
  let t ← decodeTy j
  some ⟨n, t⟩

/-- Decode a `Vec` elementwise. -/
def decodeArr {α : Type} (dec : Json → Option α) : Json → Option (List α)
  | .arr xs => xs.mapM dec
  | _ => none

/-- Decode `Table`. -/
def decodeTable (j : Json) : Option Table := do
  let n ← decodeStr (← j.get? "name")
  let cols ← decodeArr decodeColumn (← j.get? "columns")
  some ⟨n, cols⟩

/-- Decode `Database`. -/
def decodeDatabase (j : Json) : Option Database := do
  let n ← decodeStr (← j.get? "name")
  let ts ← decodeArr decodeTable (← j.get? "tables")
  some ⟨n, ts⟩

/-- Decode `Constant` (externally tagged). -/
def decodeConstant : Json → Option Constant
  | .obj [("Bool", p)] => (decodeBool p).map .bool
  | .obj [("Int", p)] => (decodeUsize p).map .int
  | .obj [("Double", p)] => (decodeF64 p).map .double
  | .obj [("String", p)] => (decodeStr p).map .string
  | _ => none

/-- Decode `TableReference`. -/
def decodeTableReference (j : Json) : Option TableReference := do
  let t ← decodeStr (← j.get? "table")
  some ⟨t⟩

/-- Decode `ColumnReference` (its `TableReference` is flattened). -/
def decodeColumnReference (j : Json) : Option ColumnReference := do
  let t ← decodeStr (← j.get? "table")
  let c ← decodeStr (← j.get? "column")
  some ⟨⟨t⟩, c⟩

/-- Decode `Expression` (externally tagged), by structural recursion on
the JSON tree.  The payload of a struct variant is matched in its
canonical shape — the exact field sequence serialization emits; serde's
deserializer is additionally tolerant of permuted struct-variant fields,
a liberality no canonical value exercises and which this model omits. -/
def decodeExpression : Json → Option Expression
  | .obj [("Constant", p)] => (decodeConstant p).map .constant
  | .obj [("ColumnReference", p)] => (decodeColumnReference p).map .columnReference
  | .obj [("Not", p)] => (decodeExpression p).map .not
  | .obj [("NotNull", .obj [("casted", c), ("default", d)])] => do
      some (.notNull (← decodeExpression c) (← decodeExpression d))
  | .obj [("Equals", .obj [("left", l), ("right", r)])] => do
      some (.equals (← decodeExpression l) (← decodeExpression r))
  | .obj [("LessThan", .obj [("left", l), ("right", r)])] => do
      some (.lessThan (← decodeExpression l) (← decodeExpression r))
  | .obj [("GreaterThan", .obj [("left", l), ("right", r)])] => do
      some (.greaterThan (← decodeExpression l) (← decodeExpression r))
  | .obj [("LessThanOrEqual", .obj [("left", l), ("right", r)])] => do
      some (.lessThanOrEqual (← decodeExpression l) (← decodeExpression r))
  | .obj [("GreaterThanOrEqual", .obj [("left", l), ("right", r)])] => do
      some (.greaterThanOrEqual (← decodeExpression l) (← decodeExpression r))
  | .obj [("Plus", .obj [("left", l), ("right", r)])] => do
      some (.plus (← decodeExpression l) (← decodeExpression r))
  | .obj [("Subtract", .obj [("left", l), ("right", r)])] => do
      some (.subtract (← decodeExpression l) (← decodeExpression r))
  | .obj [("Divide", .obj [("left", l), ("right", r)])] => do
      some (.divide (← decodeExpression l) (← decodeExpression r))
  | .obj [("Multiply", .obj [("left", l), ("right", r)])] => do
      some (.multiply (← decodeExpression l) (← decodeExpression r))
  | .obj [("Modulo", .obj [("left", l), ("right", r)])] => do
      some (.modulo (← decodeExpression l) (← decodeExpression r))
  | .obj [("And", .obj [("left", l), ("right", r)])] => do
      some (.and (← decodeExpression l) (← decodeExpression r))
  | .obj [("Or", .obj [("left", l), ("right", r)])] => do
      some (.or (← decodeExpression l) (← decodeExpression r))
  | .obj [("BitAnd", .obj [("left", l), ("right", r)])] => do
      some (.bitAnd (← decodeExpression l) (← decodeExpression r))
  | .obj [("BitOr", .obj [("left", l), ("right", r)])] => do
      some (.bitOr (← decodeExpression l) (← decodeExpression r))
  | .obj [("BitXOr", .obj [("left", l), ("right", r)])] => do
      some (.bitXOr (← decodeExpression l) (← decodeExpression r))
  | .obj [("Contains", .obj [("left", l), ("right", r)])] => do
      some (.contains (← decodeExpression l) (← decodeExpression r))
  | .obj [("StartsWith", .obj [("left", l), ("right", r)])] => do
      some (.startsWith (← decodeExpression l) (← decodeExpression r))
  | .obj [("EndsWith", .obj [("left", l), ("right", r)])] => do
      some (.endsWith (← decodeExpression l) (← decodeExpression r))
  | .obj [("Conditional", .obj [("condition", c), ("true_path", t), ("false_path", f)])] => do
      some (.conditional (← decodeExpression c) (← decodeExpression t) (← decodeExpression f))
  | _ => none

/-- Decode an `Option<Expression>` field: a missing field is `none`. -/
def decodeOptExpr (j : Json) (field : String) : Option (Option Expression) :=
  match j.get? field with
  | none => some none
  | some p => (decodeExpression p).map some

/-- Decode the empty struct `NoOp` (a map; fields ignored). -/
def decodeNoOp : Json → Option NoOp
  | .obj _ => some ⟨⟩
  | _ => none

/-- Decode a `Map<String, Value>`: any JSON object, its values taken as
raw `serde_json::Value`s. -/
def decodeRowMap : Json → Option (List (String × Json))
  | .obj fs => some fs
  | _ => none

/-- Decode `Select`. -/
def decodeSelect (j : Json) : Option Select := do
  let t ← decodeTableReference (← j.get? "table")
  let ec ← decodeOptExpr j "execution_condition"
  let fl ← decodeOptExpr j "filter"
  some ⟨t, ec, fl⟩

/-- Decode `Delete`. -/
def decodeDelete (j : Json) : Option Delete := do
  let t ← decodeTableReference (← j.get? "table")
  let ec ← decodeOptExpr j "execution_condition"
  let fl ← decodeOptExpr j "filter"
  some ⟨t, ec, fl⟩

/-- Decode `Insert`: `data` is a required sequence of raw row maps. -/
def decodeInsert (j : Json) : Option Insert := do
  let t ← decodeTableReference (← j.get? "table")
  let ec ← decodeOptExpr j "execution_condition"
  let rows ← decodeArr decodeRowMap (← j.get? "data")
  some ⟨t, ec, rows⟩

/-- Decode `Update`: `data` is a required raw row map. -/
def decodeUpdate (j : Json) : Option Update := do
  let t ← decodeTableReference (← j.get? "table")
  let ec ← decodeOptExpr j "execution_condition"
  let fl ← decodeOptExpr j "filter"
  let row ← decodeRowMap (← j.get? "data")
  some ⟨t, ec, fl, row⟩

/-- Decode `Statement` (externally tagged). -/
def decodeStatement : Json → Option Statement
  | .obj [("NoOp", p)] => (decodeNoOp p).map .noOp
  | .obj [("Select", p)] => (decodeSelect p).map .select
  | .obj [("Delete", p)] => (decodeDelete p).map .delete
  | .obj [("Insert", p)] => (decodeInsert p).map .insert
  | .obj [("Update", p)] => (decodeUpdate p).map .update
  | _ => none

/-- Decode `DatabaseReference`. -/
def decodeDatabaseReference (j : Json) : Option DatabaseReference := do
  let d ← decodeStr (← j.get? "database")
  some ⟨d⟩

/-- Decode `Transaction`. -/
def decodeTransaction (j : Json) : Option Transaction := do
  let d ← decodeDatabaseReference (← j.get? "database")
  let ss ← decodeArr decodeStatement (← j.get? "statements")
  some ⟨d, ss⟩

/-- Decode `DefinitionFile`. -/
def decodeDefinitionFile (j : Json) : Option DefinitionFile := do
  let dbs ← decodeArr decodeDatabase (← j.get? "databases")
  let txs ← decodeArr decodeTransaction (← j.get? "transactions")
  some ⟨dbs, txs⟩

/-! ## Wire-form round trip

`serialize` then `deserialize` recovers the value — except where a
non-finite `f64` appears, since serde_json writes a non-finite float as
`null` and `null` does not deserialize back into an `f64`.  The
`doublesFinite` predicates below delimit the values free of that trap. -/

/-- Is this `f64` finite? -/
def F64.isFinite : F64 → Bool
  | .finite _ => true
  | _ => false

/-- All `Double` bounds in this `DataType` are finite. -/
def DataType.doublesFinite : DataType → Bool
  | .double u l => u.isFinite && l.isFinite
  | _ => true

/-- All `Double` bounds in this column's type are finite. -/
def Column.doublesFinite (c : Column) : Bool :=
  c._type.data_type.doublesFinite

/-- All `Double` bounds in this table are finite. -/
def Table.doublesFinite (t : Table) : Bool :=
  t.columns.all Column.doublesFinite

/-- All `Double` bounds in this database are finite. -/
def Database.doublesFinite (d : Database) : Bool :=
  d.tables.all Table.doublesFinite

/-- A `Double` constant is finite (other constants trivially are). -/
def Constant.doublesFinite : Constant → Bool
  | .double f => f.isFinite
  | _ => true

/-- All `Double` constants in this expression are finite. -/
def Expression.doublesFinite : Expression → Bool
  | .constant c => c.doublesFinite
  | .columnReference _ => true
  | .not e => e.doublesFinite
  | .notNull c d => c.doublesFinite && d.doublesFinite
  | .equals l r | .lessThan l r | .greaterThan l r | .lessThanOrEqual l r
  | .greaterThanOrEqual l r | .plus l r | .subtract l r | .divide l r
  | .multiply l r | .modulo l r | .and l r | .or l r | .bitAnd l r
  | .bitOr l r | .bitXOr l r | .contains l r | .startsWith l r
  | .endsWith l r => l.doublesFinite && r.doublesFinite
  | .conditional c t f => c.doublesFinite && t.doublesFinite && f.doublesFinite

/-- All `Double` constants in an optional expression are finite. -/
def optDoublesFinite : Option Expression → Bool
  | none => true
  | some e => e.doublesFinite

/-- All `Double` constants in this statement's expressions are finite. -/
def Statement.doublesFinite : Statement → Bool
  | .noOp _ => true
  | .select v => optDoublesFinite v.execution_condition && optDoublesFinite v.filter
  | .delete v => optDoublesFinite v.execution_condition && optDoublesFinite v.filter
  | .insert v => optDoublesFinite v.execution_condition
  | .update v => optDoublesFinite v.execution_condition && optDoublesFinite v.filter

/-- All `Double` constants in this transaction are finite. -/
def Transaction.doublesFinite (t : Transaction) : Bool :=
  t.statements.all Statement.doublesFinite

/-- Every `Double` bound and `Double` constant in the file is finite. -/
def DefinitionFile.doublesFinite (f : DefinitionFile) : Bool :=
  f.databases.all Database.doublesFinite && f.transactions.all Transaction.doublesFinite

theorem mapM_encode {α β : Type} (enc : α → β) (dec : β → Option α) (xs : List α)
    (h : ∀ a ∈ xs, dec (enc a) = some a) : (xs.map enc).mapM dec = some xs := by
  induction xs with
  | nil => rfl
  | cons x xs ih =>
      simp only [List.map_cons, List.mapM_cons, h x (by simp)]
      rw [ih fun a ha => h a (by simp [ha])]
      rfl

theorem decodeArr_encode {α : Type} (enc : α → Json) (dec : Json → Option α) (xs : List α)
    (h : ∀ a ∈ xs, dec (enc a) = some a) : decodeArr dec (.arr (xs.map enc)) = some xs := by
  simpa [decodeArr] using mapM_encode enc dec xs h

theorem decodeF64_encode (f : F64) (h : f.isFinite = true) : decodeF64 f.encode = some f := by
  cases f <;> simp_all [F64.isFinite, F64.encode, decodeF64]

theorem decodeUsize_nat (n : Nat) : decodeUsize (.num (.int n)) = some n := by
  simp [decodeUsize]

theorem decodeDataType_encode (t : DataType) (h : t.doublesFinite = true) :
    decodeDataType (encodeDataType t) = some t := by
  cases t with
  | double u l =>
      simp only [DataType.doublesFinite, Bool.and_eq_true] at h
      simp [encodeDataType, decodeDataType, Json.get?, List.lookup,
            decodeF64_encode u h.1, decodeF64_encode l h.2]
  | _ =>
      simp [encodeDataType, decodeDataType, Json.get?, List.lookup,
            decodeIsize, decodeUsize_nat]

theorem decodeColumn_encode (c : Column) (h : c.doublesFinite = true) :
    decodeColumn (encodeColumn c) = some c := by
  obtain ⟨n, dt, u, nn⟩ := c
  simp only [Column.doublesFinite] at h
  simp [encodeColumn, encodeTyFields, decodeColumn, decodeTy, decodeStr, decodeBool,
        Json.get?, List.lookup, decodeDataType_encode _ h]

theorem decodeTable_encode (t : Table) (h : t.doublesFinite = true) :
    decodeTable (encodeTable t) = some t := by
  obtain ⟨n, cols⟩ := t
  simp only [Table.doublesFinite, List.all_eq_true] at h
  simp [encodeTable, decodeTable, decodeStr, Json.get?, List.lookup,
        decodeArr_encode encodeColumn decodeColumn cols
          (fun c hc => decodeColumn_encode c (by simpa using h c hc))]

theorem decodeDatabase_encode (d : Database) (h : d.doublesFinite = true) :
    decodeDatabase (encodeDatabase d) = some d := by
  obtain ⟨n, ts⟩ := d
  simp only [Database.doublesFinite, List.all_eq_true] at h
  simp [encodeDatabase, decodeDatabase, decodeStr, Json.get?, List.lookup,
        decodeArr_encode encodeTable decodeTable ts
          (fun t ht => decodeTable_encode t (by simpa using h t ht))]

theorem decodeConstant_encode (c : Constant) (h : c.doublesFinite = true) :
    decodeConstant (encodeConstant c) = some c := by
  cases c <;>
    simp_all [Constant.doublesFinite, encodeConstant, decodeConstant, decodeBool,
              decodeStr, decodeUsize_nat, decodeF64_encode]

theorem decodeColumnReference_encode (r : ColumnReference) :
    decodeColumnReference (encodeColumnReference r) = some r := by
  obtain ⟨⟨t⟩, c⟩ := r
  simp [encodeColumnReference, decodeColumnReference, decodeStr, Json.get?, List.lookup]

/-! Unfolding equations for `decodeExpression` at each canonical shape
(the equation compiler declines to generate equations for the large
match, but each instance holds definitionally). -/

theorem decodeExpression_eq_constant (p : Json) :
    decodeExpression (.obj [("Constant", p)]) = (decodeConstant p).map .constant := rfl

theorem decodeExpression_eq_columnReference (p : Json) :
    decodeExpression (.obj [("ColumnReference", p)])
      = (decodeColumnReference p).map .columnReference := rfl

theorem decodeExpression_eq_not (p : Json) :
    decodeExpression (.obj [("Not", p)]) = (decodeExpression p).map .not := rfl

theorem decodeExpression_eq_notNull (c d : Json) :
    decodeExpression (.obj [("NotNull", .obj [("casted", c), ("default", d)])])
      = (do some (.notNull (← decodeExpression c) (← decodeExpression d))) := rfl

theorem decodeExpression_eq_equals (l r : Json) :
    decodeExpression (.obj [("Equals", .obj [("left", l), ("right", r)])])
      = (do some (.equals (← decodeExpression l) (← decodeExpression r))) := rfl

theorem decodeExpression_eq_lessThan (l r : Json) :
    decodeExpression (.obj [("LessThan", .obj [("left", l), ("right", r)])])
      = (do some (.lessThan (← decodeExpression l) (← decodeExpression r))) := rfl

theorem decodeExpression_eq_greaterThan (l r : Json) :
    decodeExpression (.obj [("GreaterThan", .obj [("left", l), ("right", r)])])
      = (do some (.greaterThan (← decodeExpression l) (← decodeExpression r))) := rfl

theorem decodeExpression_eq_lessThanOrEqual (l r : Json) :
    decodeExpression (.obj [("LessThanOrEqual", .obj [("left", l), ("right", r)])])
      = (do some (.lessThanOrEqual (← decodeExpression l) (← decodeExpression r))) := rfl

theorem decodeExpression_eq_greaterThanOrEqual (l r : Json) :
    decodeExpression (.obj [("GreaterThanOrEqual", .obj [("left", l), ("right", r)])])
      = (do some (.greaterThanOrEqual (← decodeExpression l) (← decodeExpression r))) := rfl

theorem decodeExpression_eq_plus (l r : Json) :
    decodeExpression (.obj [("Plus", .obj [("left", l), ("right", r)])])
      = (do some (.plus (← decodeExpression l) (← decodeExpression r))) := rfl

theorem decodeExpression_eq_subtract (l r : Json) :
    decodeExpression (.obj [("Subtract", .obj [("left", l), ("right", r)])])
      = (do some (.subtract (← decodeExpression l) (← decodeExpression r))) := rfl

theorem decodeExpression_eq_divide (l r : Json) :
    decodeExpression (.obj [("Divide", .obj [("left", l), ("right", r)])])
      = (do some (.divide (← decodeExpression l) (← decodeExpression r))) := rfl

theorem decodeExpression_eq_multiply (l r : Json) :
    decodeExpression (.obj [("Multiply", .obj [("left", l), ("right", r)])])
      = (do some (.multiply (← decodeExpression l) (← decodeExpression r))) := rfl

theorem decodeExpression_eq_modulo (l r : Json) :
    decodeExpression (.obj [("Modulo", .obj [("left", l), ("right", r)])])
      = (do some (.modulo (← decodeExpression l) (← decodeExpression r))) := rfl

theorem decodeExpression_eq_and (l r : Json) :
    decodeExpression (.obj [("And", .obj [("left", l), ("right", r)])])
      = (do some (.and (← decodeExpression l) (← decodeExpression r))) := rfl

theorem decodeExpression_eq_or (l r : Json) :
    decodeExpression (.obj [("Or", .obj [("left", l), ("right", r)])])
      = (do some (.or (← decodeExpression l) (← decodeExpression r))) := rfl

theorem decodeExpression_eq_bitAnd (l r : Json) :
    decodeExpression (.obj [("BitAnd", .obj [("left", l), ("right", r)])])
      = (do some (.bitAnd (← decodeExpression l) (← decodeExpression r))) := rfl

theorem decodeExpression_eq_bitOr (l r : Json) :
    decodeExpression (.obj [("BitOr", .obj [("left", l), ("right", r)])])
      = (do some (.bitOr (← decodeExpression l) (← decodeExpression r))) := rfl

theorem decodeExpression_eq_bitXOr (l r : Json) :
    decodeExpression (.obj [("BitXOr", .obj [("left", l), ("right", r)])])
      = (do some (.bitXOr (← decodeExpression l) (← decodeExpression r))) := rfl

theorem decodeExpression_eq_contains (l r : Json) :
    decodeExpression (.obj [("Contains", .obj [("left", l), ("right", r)])])
      = (do some (.contains (← decodeExpression l) (← decodeExpression r))) := rfl

theorem decodeExpression_eq_startsWith (l r : Json) :
    decodeExpression (.obj [("StartsWith", .obj [("left", l), ("right", r)])])
      = (do some (.startsWith (← decodeExpression l) (← decodeExpression r))) := rfl

theorem decodeExpression_eq_endsWith (l r : Json) :
    decodeExpression (.obj [("EndsWith", .obj [("left", l), ("right", r)])])
      = (do some (.endsWith (← decodeExpression l) (← decodeExpression r))) := rfl

theorem decodeExpression_eq_conditional (c t f : Json) :
    decodeExpression (.obj [("Conditional",
        .obj [("condition", c), ("true_path", t), ("false_path", f)])])
      = (do some (.conditional (← decodeExpression c) (← decodeExpression t)
                    (← decodeExpression f))) := rfl

theorem decodeExpression_encode (e : Expression) (h : e.doublesFinite = true) :
    decodeExpression (encodeExpression e) = some e := by
  induction e <;>
    simp_all [encodeExpression, Expression.doublesFinite, Bool.and_eq_true,
              decodeConstant_encode, decodeColumnReference_encode,
              decodeExpression_eq_constant,
              decodeExpression_eq_columnReference,
              decodeExpression_eq_not,
              decodeExpression_eq_notNull,
              decodeExpression_eq_equals,
              decodeExpression_eq_lessThan,
              decodeExpression_eq_greaterThan,
              decodeExpression_eq_lessThanOrEqual,
              decodeExpression_eq_greaterThanOrEqual,
              decodeExpression_eq_plus,
              decodeExpression_eq_subtract,
              decodeExpression_eq_divide,
              decodeExpression_eq_multiply,
              decodeExpression_eq_modulo,
              decodeExpression_eq_and,
              decodeExpression_eq_or,
              decodeExpression_eq_bitAnd,
              decodeExpression_eq_bitOr,
              decodeExpression_eq_bitXOr,
              decodeExpression_eq_contains,
              decodeExpression_eq_startsWith,
              decodeExpression_eq_endsWith,
              decodeExpression_eq_conditional]

theorem decodeTableReference_encode (r : TableReference) :
    decodeTableReference (encodeTableReference r) = some r := by
  obtain ⟨t⟩ := r
  simp [encodeTableReference, decodeTableReference, decodeStr, Json.get?, List.lookup]

theorem decodeSelect_encode (s : Select)
    (hec : optDoublesFinite s.execution_condition = true)
    (hfl : optDoublesFinite s.filter = true) :
    decodeSelect (encodeSelect s) = some s := by
  obtain ⟨⟨t⟩, ec, fl⟩ := s
  cases ec <;> cases fl <;>
    simp_all [encodeSelect, encodeTableReference, encodeOptExpr, decodeSelect,
              decodeTableReference, decodeOptExpr, decodeStr, optDoublesFinite,
              Json.get?, List.lookup, decodeExpression_encode]

theorem decodeDelete_encode (s : Delete)
    (hec : optDoublesFinite s.execution_condition = true)
    (hfl : optDoublesFinite s.filter = true) :
    decodeDelete (encodeDelete s) = some s := by
  obtain ⟨⟨t⟩, ec, fl⟩ := s
  cases ec <;> cases fl <;>
    simp_all [encodeDelete, encodeTableReference, encodeOptExpr, decodeDelete,
              decodeTableReference, decodeOptExpr, decodeStr, optDoublesFinite,
              Json.get?, List.lookup, decodeExpression_encode]

theorem decodeInsert_encode (s : Insert)
    (hec : optDoublesFinite s.execution_condition = true) :
    decodeInsert (encodeInsert s) = some s := by
  obtain ⟨⟨t⟩, ec, rows⟩ := s
  have hrows : decodeArr decodeRowMap (.arr (rows.map Json.obj)) = some rows :=
    decodeArr_encode Json.obj decodeRowMap rows fun a _ => rfl
  cases ec <;>
    simp_all [encodeInsert, encodeTableReference, encodeOptExpr, decodeInsert,
              decodeTableReference, decodeOptExpr, decodeStr, optDoublesFinite,
              Json.get?, List.lookup, decodeExpression_encode]

theorem decodeUpdate_encode (s : Update)
    (hec : optDoublesFinite s.execution_condition = true)
    (hfl : optDoublesFinite s.filter = true) :
    decodeUpdate (encodeUpdate s) = some s := by
  obtain ⟨⟨t⟩, ec, fl, row⟩ := s
  cases ec <;> cases fl <;>
    simp_all [encodeUpdate, encodeTableReference, encodeOptExpr, decodeUpdate,
              decodeTableReference, decodeOptExpr, decodeRowMap, decodeStr,
              optDoublesFinite, Json.get?, List.lookup, decodeExpression_encode]

theorem decodeStatement_encode (s : Statement) (h : s.doublesFinite = true) :
    decodeStatement (encodeStatement s) = some s := by
  cases s with
  | noOp v => cases v; simp [encodeStatement, decodeStatement, decodeNoOp]
  | select v =>
      simp only [Statement.doublesFinite, Bool.and_eq_true] at h
      simp [encodeStatement, decodeStatement, decodeSelect_encode v h.1 h.2]
  | delete v =>
      simp only [Statement.doublesFinite, Bool.and_eq_true] at h
      simp [encodeStatement, decodeStatement, decodeDelete_encode v h.1 h.2]
  | insert v =>
      simp only [Statement.doublesFinite] at h
      simp [encodeStatement, decodeStatement, decodeInsert_encode v h]
  | update v =>
      simp only [Statement.doublesFinite, Bool.and_eq_true] at h
      simp [encodeStatement, decodeStatement, decodeUpdate_encode v h.1 h.2]

theorem decodeTransaction_encode (t : Transaction) (h : t.doublesFinite = true) :
    decodeTransaction (encodeTransaction t) = some t := by
  obtain ⟨⟨d⟩, ss⟩ := t
  simp only [Transaction.doublesFinite, List.all_eq_true] at h
  simp [encodeTransaction, decodeTransaction, decodeDatabaseReference, decodeStr,
        Json.get?, List.lookup,
        decodeArr_encode encodeStatement decodeStatement ss
          (fun s hs => decodeStatement_encode s (by simpa using h s hs))]

theorem decodeDefinitionFile_encode (f : DefinitionFile) (h : f.doublesFinite = true) :
    decodeDefinitionFile (encodeDefinitionFile f) = some f := by
  obtain ⟨dbs, txs⟩ := f
  simp only [DefinitionFile.doublesFinite, Bool.and_eq_true, List.all_eq_true] at h
  simp [encodeDefinitionFile, decodeDefinitionFile, Json.get?, List.lookup,
        decodeArr_encode encodeDatabase decodeDatabase dbs
          (fun d hd => decodeDatabase_encode d (by simpa using h.1 d hd)),
        decodeArr_encode encodeTransaction decodeTransaction txs
          (fun t ht => decodeTransaction_encode t (by simpa using h.2 t ht))]

/-! ## Concrete values used by the claim theorems -/

/-- A file whose one column declares `Double` bounds with a NaN upper
bound — a perfectly constructible in-memory value. -/
def nanBoundsFile : DefinitionFile :=
  { databases :=
      [{ name := "db",
         tables :=
           [{ name := "t",
              columns :=
                [{ name := "c",
                   _type := { data_type := .double .nan (.finite 0),
                              unique := false, not_null := false } }] }] }],
    transactions := [] }

/-- A representative file: all four data types, finite double bounds and
constants, optional fields present and absent, every statement kind, raw
row data including `null` and a nested value. -/
def sampleFile : DefinitionFile :=
  { databases :=
      [{ name := "app",
         tables :=
           [{ name := "users",
              columns :=
                [{ name := "id",
                   _type := { data_type := .int 1000000 0,
                              unique := true, not_null := true } },
                 { name := "score",
                   _type := { data_type := .double (.finite (5/2)) (.finite (-1)),
                              unique := false, not_null := false } },
                 { name := "name",
                   _type := { data_type := .string 1 64,
                              unique := false, not_null := true } },
                 { name := "flag",
                   _type := { data_type := .bool,
                              unique := false, not_null := false } }] }] }],
    transactions :=
      [{ database := { database := "app" },
         statements :=
           [.insert { table := { table := "users" },
                      execution_condition := some (.constant (.bool true)),
                      data := [[("id", .num (.int 1)), ("name", .str "ann")],
                               [("id", .num (.int 2)), ("extra", .null)]] },
            .update { table := { table := "users" },
                      execution_condition := none,
                      filter := some (.equals
                        (.columnReference { table := { table := "users" }, column := "id" })
                        (.constant (.int 1))),
                      data := [("name", .str "bob")] },
            .select { table := { table := "users" },
                      execution_condition := none,
                      filter := some (.or (.constant (.bool true))
                        (.divide (.constant (.int 1)) (.constant (.int 0)))) },
            .delete { table := { table := "users" },
                      execution_condition := none,
                      filter := some (.conditional (.constant (.bool false))
                        (.constant (.double (.finite (1/3))))
                        (.constant (.int 7))) },
            .noOp {}] }] }

/-- A concrete column with `Int` bounds. -/
def intColumn : Column :=
  { name := "c", _type := { data_type := .int 10 0, unique := false, not_null := true } }

/-- The top-level keys of a JSON object. -/
def Json.topKeys : Json → List String
  | .obj fields => fields.map Prod.fst
  | _ => []

/-! ## Claims C3, C8, C9, C10 -/

/-- C3 (counterexample): encoding then decoding does not recover every
`DefinitionFile`: a NaN `Double` bound serializes as `null` (serde_json
writes non-finite floats as `null`), and `null` does not deserialize back
into an `f64`, so decoding the encoding of `nanBoundsFile` fails
entirely rather than returning the original value. -/
theorem C3_roundtrip_counterexample :
    decodeDefinitionFile (encodeDefinitionFile nanBoundsFile) ≠ some nanBoundsFile := by
  have h : decodeDefinitionFile (encodeDefinitionFile nanBoundsFile) = none := rfl
  simp [h]

/-- C3 (amended): for every `DefinitionFile` whose `Double` bounds and
`Double` constants are all finite, encoding to the canonical wire form
and then decoding yields a structurally equal value — the serialize /
deserialize round trip over the serde embedding of `DefinitionFile` and
all nested types. -/
theorem C3_roundtrip_amended (f : DefinitionFile) (h : f.doublesFinite = true) :
    decodeDefinitionFile (encodeDefinitionFile f) = some f :=
  decodeDefinitionFile_encode f h

/-- C3 (witness): the amended round trip at a representative concrete
file. -/
theorem C3_roundtrip_witness :
    sampleFile.doublesFinite = true ∧
    decodeDefinitionFile (encodeDefinitionFile sampleFile) = some sampleFile :=
  ⟨rfl, C3_roundtrip_amended sampleFile rfl⟩

/-- C8 (counterexample): the encoded `Column` map has no top-level
`"type"` key at all — the discriminant/`"bounds"` pair lives inside the
object stored under the `"data_type"` key, so the claim's flat layout
(`"type"` and `"bounds"` at the same nesting level as `"name"`) does not
hold for `intColumn`. -/
theorem C8_column_encoding_counterexample :
    (encodeColumn intColumn).topKeys = ["name", "data_type", "unique", "not_null"] ∧
    (encodeColumn intColumn).get? "type" = none ∧
    (encodeColumn intColumn).get? "data_type"
      = some (.obj [("type", .str "Int"),
                    ("bounds", .obj [("upper", .num (.int 10)), ("lower", .num (.int 0))])]) :=
  ⟨rfl, rfl, rfl⟩

/-- C8 (amended): a `Column` encodes as a single flat map holding
`name`, then the flattened `Type` fields `data_type`, `unique` and
`not_null` at that same level; the `DataType` discriminant sits under the
key `"type"` with its payload under the sibling key `"bounds"` *inside*
the object stored under `"data_type"` (`Bool` contributing no bounds
entry, `Int` carrying `{upper, lower}`, `String` carrying
`{min_chars, max_chars}`), not beside `name`. -/
theorem C8_column_encoding_amended (c : Column) :
    encodeColumn c =
      .obj [("name", .str c.name),
            ("data_type", encodeDataType c._type.data_type),
            ("unique", .bool c._type.unique),
            ("not_null", .bool c._type.not_null)] ∧
    encodeDataType .bool = .obj [("type", .str "Bool")] ∧
    (∀ u l : Int, encodeDataType (.int u l)
      = .obj [("type", .str "Int"),
              ("bounds", .obj [("upper", .num (.int u)), ("lower", .num (.int l))])]) ∧
    (∀ mn mx : Nat, encodeDataType (.string mn mx)
      = .obj [("type", .str "String"),
              ("bounds", .obj [("min_chars", .num (.int mn)), ("max_chars", .num (.int mx))])]) :=
  ⟨rfl, rfl, fun _ _ => rfl, fun _ _ => rfl⟩

/-- C9: an integer literal `Constant` is unsigned — `Constant::Int`
holds a `usize`, so an `"Int"` constant decodes exactly when the JSON
integer is not negative (yielding its `Nat` value), and every encoding
of a negative integer constant is rejected at parse time — while the
declared `DataType::Int` bounds are `isize` and round-trip any signed
values, negative ones included. -/
theorem C9_int_constant_unsigned :
    (∀ i : Int, decodeConstant (.obj [("Int", .num (.int i))])
        = if 0 ≤ i then some (.int i.toNat) else none) ∧
    (∀ n : Nat, decodeConstant (encodeConstant (.int n)) = some (.int n)) ∧
    (∀ u l : Int, decodeDataType (encodeDataType (.int u l)) = some (.int u l)) := by
  refine ⟨fun i => ?_, fun n => decodeConstant_encode (.int n) rfl,
          fun u l => decodeDataType_encode (.int u l) rfl⟩
  simp only [decodeConstant, decodeUsize]
  split <;> simp_all

/-- C10: `Insert` and `Update` row data are raw JSON: decoding accepts
arbitrary values in the column-name-to-value maps — `null`, arrays,
nested objects, anything — and stores them untouched; the decoders take
no schema input, so loading performs no conformance check of the values
against the referenced table's declared column types. -/
theorem C10_raw_row_data :
    (∀ (tbl : String) (rows : List (List (String × Json))),
      decodeStatement (.obj [("Insert",
          .obj [("table", .obj [("table", .str tbl)]), ("data", .arr (rows.map Json.obj))])])
        = some (.insert { table := ⟨tbl⟩, execution_condition := none, data := rows })) ∧
    (∀ (tbl : String) (row : List (String × Json)),
      decodeStatement (.obj [("Update",
          .obj [("table", .obj [("table", .str tbl)]), ("data", .obj row)])])
        = some (.update { table := ⟨tbl⟩, execution_condition := none,
                          filter := none, data := row })) := by
  constructor
  · intro tbl rows
    simp [decodeStatement, decodeInsert, decodeTableReference, decodeOptExpr, decodeStr,
          Json.get?, List.lookup,
          decodeArr_encode Json.obj decodeRowMap rows (fun a _ => rfl)]
  · intro tbl row
    simp [decodeStatement, decodeUpdate, decodeTableReference, decodeOptExpr, decodeStr,
          decodeRowMap, Json.get?, List.lookup]

/-! ## Schema Model construction (load-time validation)

`src/lib.rs` declares structure only; the name-charset and uniqueness
validation of the Schema Model (spec §4.1) has no implementation under
`src/`, so it is modelled from the spec below. -/

/-- Modelled from the spec: the name character set `[A-Za-z0-9_.-]`
(letters a-z and A-Z, digits 0-9, and the symbols underscore, hyphen,
dot), per §3 and the doc comments on `Database`/`Table`/`Column`. -/
def validNameChar (c : Char) : Bool :=
  (('a' ≤ c && c ≤ 'z') || ('A' ≤ c && c ≤ 'Z') || ('0' ≤ c && c ≤ '9')
    || c == '_' || c == '-' || c == '.')

/-- Modelled from the spec: a valid identifier matches `[A-Za-z0-9_.-]+`
— a non-empty string of allowed characters. -/
def validName (s : String) : Bool :=
  !s.isEmpty && s.toList.all validNameChar

/-- Modelled from the spec (§4.1, §7): the structural load-time errors of
Schema Model construction, absent from `src/`. -/
inductive LoadError where
  | invalidName (n : String)
  | duplicateName (n : String)

/-- The first name occurring twice in a list, if any. -/
def firstDup : List String → Option String
  | [] => none
  | x :: xs => if xs.contains x then some x else firstDup xs

/-- A repeated column name inside one table, if any. -/
def Table.dupName (t : Table) : Option String :=
  firstDup (t.columns.map Column.name)

/-- A repeated table name inside this database, or a repeated column
name inside one of its tables, if any. -/
def Database.dupName (d : Database) : Option String :=
  match firstDup (d.tables.map Table.name) with
  | some n => some n
  | none => d.tables.findSome? Table.dupName

/-- A violated uniqueness invariant anywhere in the file: a repeated
per-file database name, per-database table name, or per-table column
name. -/
def fileDupName (f : DefinitionFile) : Option String :=
  match firstDup (f.databases.map Database.name) with
  | some n => some n
  | none => f.databases.findSome? Database.dupName

/-- This column's name, when it violates the charset rule. -/
def Column.charsetOffender (c : Column) : Option String :=
  if validName c.name then none else some c.name

/-- A name in this table violating the charset rule, if any. -/
def Table.charsetOffender (t : Table) : Option String :=
  if validName t.name then t.columns.findSome? Column.charsetOffender else some t.name

/-- A name in this database violating the charset rule, if any. -/
def Database.charsetOffender (d : Database) : Option String :=
  if validName d.name then d.tables.findSome? Table.charsetOffender else some d.name

/-- A declared name anywhere in the file violating the charset rule. -/
def fileCharsetOffender (f : DefinitionFile) : Option String :=
  f.databases.findSome? Database.charsetOffender

/-- Modelled from the spec: §4.1 Schema Model construction, absent from
`src/`.  Construct from parsed input; reject with `DuplicateName` if a
uniqueness invariant fails (per-file database names, per-database table
names, per-table column names); reject with `InvalidName` if any
database/table/column name fails the charset rule.  The spec states the
two rejections without an order; uniqueness is checked first here. -/
def mkSchemaModel (f : DefinitionFile) : Except LoadError (List Database) :=
  match fileDupName f with
  | some n => .error (.duplicateName n)
  | none =>
      match fileCharsetOffender f with
      | some n => .error (.invalidName n)
      | none => .ok f.databases

/-- The spec's uniqueness invariants (§3), as a proposition: database
names unique per file, table names unique per database, column names
unique per table. -/
def nodupNames (f : DefinitionFile) : Prop :=
  (f.databases.map Database.name).Nodup ∧
  (∀ d ∈ f.databases, (d.tables.map Table.name).Nodup) ∧
  (∀ d ∈ f.databases, ∀ t ∈ d.tables, (t.columns.map Column.name).Nodup)

theorem firstDup_eq_none_iff (l : List String) : firstDup l = none ↔ l.Nodup := by
  induction l with
  | nil => simp [firstDup]
  | cons x xs ih => by_cases hc : xs.contains x <;> simp_all [firstDup, List.nodup_cons]

theorem fileDupName_eq_none_iff (f : DefinitionFile) :
    fileDupName f = none ↔ nodupNames f := by
  have hdb (d : Database) : d.dupName = none ↔
      ((d.tables.map Table.name).Nodup ∧ ∀ t ∈ d.tables, (t.columns.map Column.name).Nodup) := by
    cases htd : firstDup (d.tables.map Table.name) with
    | none =>
        simp [Database.dupName, htd, List.findSome?_eq_none_iff, Table.dupName,
              firstDup_eq_none_iff, (firstDup_eq_none_iff _).mp htd]
    | some n =>
        have hnn : ¬ (d.tables.map Table.name).Nodup := by
          intro hnd
          rw [← firstDup_eq_none_iff] at hnd
          simp [htd] at hnd
        simp [Database.dupName, htd, hnn]
  cases hfd : firstDup (f.databases.map Database.name) with
  | none =>
      simp only [fileDupName, hfd, List.findSome?_eq_none_iff, nodupNames]
      constructor
      · intro hall
        exact ⟨(firstDup_eq_none_iff _).mp hfd,
               fun d hd => ((hdb d).mp (hall d hd)).1,
               fun d hd t ht => ((hdb d).mp (hall d hd)).2 t ht⟩
      · rintro ⟨-, h2, h3⟩ d hd
        exact (hdb d).mpr ⟨h2 d hd, fun t ht => h3 d hd t ht⟩
  | some n =>
      have hnn : ¬ (f.databases.map Database.name).Nodup := by
        intro hnd
        rw [← firstDup_eq_none_iff] at hnd
        simp [hfd] at hnd
      simp [fileDupName, hfd, nodupNames, hnn]

theorem charsetOffender_invalid (f : DefinitionFile) (n : String)
    (h : fileCharsetOffender f = some n) : validName n = false := by
  obtain ⟨d, _, hd⟩ := List.exists_of_findSome?_eq_some h
  by_cases hdn : validName d.name
  · simp only [Database.charsetOffender, hdn, if_true] at hd
    obtain ⟨t, _, ht⟩ := List.exists_of_findSome?_eq_some hd
    by_cases htn : validName t.name
    · simp only [Table.charsetOffender, htn, if_true] at ht
      obtain ⟨c, _, hc⟩ := List.exists_of_findSome?_eq_some ht
      by_cases hcn : validName c.name <;> simp_all [Column.charsetOffender]
    · simp_all [Table.charsetOffender]
  · simp_all [Database.charsetOffender]

theorem fileCharsetOffender_eq_none_iff (f : DefinitionFile) :
    fileCharsetOffender f = none ↔
      ∀ d ∈ f.databases, validName d.name = true ∧
        ∀ t ∈ d.tables, validName t.name = true ∧
          ∀ c ∈ t.columns, validName c.name = true := by
  simp only [fileCharsetOffender, List.findSome?_eq_none_iff]
  refine forall_congr' fun d => forall_congr' fun _ => ?_
  by_cases hdn : validName d.name
  · simp only [Database.charsetOffender, hdn, if_true, List.findSome?_eq_none_iff, true_and]
    refine forall_congr' fun t => forall_congr' fun _ => ?_
    by_cases htn : validName t.name
    · simp only [Table.charsetOffender, htn, if_true, List.findSome?_eq_none_iff, true_and]
      refine forall_congr' fun c => forall_congr' fun _ => ?_
      by_cases hcn : validName c.name <;> simp_all [Column.charsetOffender]
    · simp_all [Table.charsetOffender]
  · simp_all [Database.charsetOffender]

/-! ## Claims C4 and C5 -/

/-- C4: given unique names, Schema Model construction accepts the file
exactly when every database/table/column name matches
`[A-Za-z0-9_.-]+`, and every rejection is an `InvalidName` carrying a
name that violates the charset rule (so a name with any other character,
such as a space, is rejected at load time with `InvalidName`). -/
theorem C4_name_charset (f : DefinitionFile) (h : nodupNames f) :
    (mkSchemaModel f = .ok f.databases ↔
      ∀ d ∈ f.databases, validName d.name = true ∧
        ∀ t ∈ d.tables, validName t.name = true ∧
          ∀ c ∈ t.columns, validName c.name = true) ∧
    (∀ e, mkSchemaModel f = .error e → ∃ n, e = .invalidName n ∧ validName n = false) := by
  have hdup : fileDupName f = none := (fileDupName_eq_none_iff f).mpr h
  constructor
  · rw [← fileCharsetOffender_eq_none_iff]
    cases hoff : fileCharsetOffender f <;> simp [mkSchemaModel, hdup, hoff]
  · intro e he
    cases hoff : fileCharsetOffender f with
    | none => simp [mkSchemaModel, hdup, hoff] at he
    | some n =>
        simp only [mkSchemaModel, hdup, hoff] at he
        exact ⟨n, by simpa using he.symm, charsetOffender_invalid f n hoff⟩

/-- C4 (witness): a database name containing a space, with all
uniqueness invariants holding, is rejected with `InvalidName`. -/
theorem C4_name_charset_witness :
    nodupNames { databases := [{ name := "my db", tables := [] }], transactions := [] } ∧
    ∀ e, mkSchemaModel { databases := [{ name := "my db", tables := [] }], transactions := [] }
        = .error e → ∃ n, e = .invalidName n ∧ validName n = false :=
  ⟨by simp [nodupNames], (C4_name_charset _ (by simp [nodupNames])).2⟩

/-- C5: whenever a uniqueness invariant is violated — two databases in
the file with the same name, two tables in one database with the same
name, or two columns in one table with the same name — Schema Model
construction rejects the file with `DuplicateName`. -/
theorem C5_duplicate_name (f : DefinitionFile)
    (h : ¬ (f.databases.map Database.name).Nodup
       ∨ (∃ d ∈ f.databases, ¬ (d.tables.map Table.name).Nodup)
       ∨ (∃ d ∈ f.databases, ∃ t ∈ d.tables, ¬ (t.columns.map Column.name).Nodup)) :
    ∃ n, mkSchemaModel f = .error (.duplicateName n) := by
  have hne : fileDupName f ≠ none := by
    intro hnone
    have hnd := (fileDupName_eq_none_iff f).mp hnone
    rcases h with h1 | ⟨d, hd, h2⟩ | ⟨d, hd, t, ht, h3⟩
    · exact h1 hnd.1
    · exact h2 (hnd.2.1 d hd)
    · exact h3 (hnd.2.2 d hd t ht)
  obtain ⟨n, hn⟩ := Option.ne_none_iff_exists.mp hne
  exact ⟨n, by simp [mkSchemaModel, ← hn]⟩

/-- C5 (witness): a file with two tables named `"t"` in one database is
rejected with `DuplicateName`. -/
theorem C5_duplicate_name_witness :
    ∃ n, mkSchemaModel
        { databases := [{ name := "db",
                          tables := [{ name := "t", columns := [] },
                                     { name := "t", columns := [] }] }],
          transactions := [] }
      = .error (.duplicateName n) :=
  C5_duplicate_name _ (Or.inr (Or.inl
    ⟨{ name := "db",
       tables := [{ name := "t", columns := [] }, { name := "t", columns := [] }] },
      by simp, by decide⟩))

/-! ## Expression Evaluator (spec §4.4)

Modelled from the spec: `src/lib.rs` declares the `Expression` tree but
no evaluator; the pure, recursive evaluation semantics of §4.4 is
modelled here.  Doubles are exact rationals (the source describes the
type as "any length of decimal number"); a non-finite double literal has
no spec-defined value and evaluates to a `TypeMismatch`.  Integer
division and modulo truncate toward zero; division or modulo by zero is
an `ArithmeticError`.  Only `Bool` values coerce to `Bool` (the source
notes integer conversions are implementation-defined, so none are
assumed). -/

/-- A typed scalar result of evaluation (spec §4.4), or null. -/
inductive Value where
  | vbool (b : Bool)
  | vint (i : Int)
  | vdouble (q : Rat)
  | vstr (s : String)
  | vnull

/-- Evaluation failures (spec §4.4): each fails the containing
statement, not the whole process. -/
inductive EvalError where
  | typeMismatch
  | arithmeticError
  | unknownColumn

/-- A `Constant` evaluates to its literal value. -/
def Constant.toValue : Constant → Except EvalError Value
  | .bool b => .ok (.vbool b)
  | .int n => .ok (.vint n)
  | .double (.finite q) => .ok (.vdouble q)
  | .double _ => .error .typeMismatch
  | .string s => .ok (.vstr s)

/-- Coerce a value to `Bool`: only `Bool` values qualify. -/
def Value.asBool : Value → Except EvalError Bool
  | .vbool b => .ok b
  | _ => .error .typeMismatch

/-- Code-point comparison of characters. -/
def charLt (a b : Char) : Bool :=
  a.toNat < b.toNat

/-- Lexicographic code-point ordering on strings (strict). -/
def charListLt : List Char → List Char → Bool
  | [], [] => false
  | [], _ :: _ => true
  | _ :: _, [] => false
  | a :: as, b :: bs => charLt a b || (a == b && charListLt as bs)

/-- Equality of values: same-type equality for `Bool`/`String`, numeric
equality with `Int`-to-`Double` widening for numbers; any other pairing
is a `TypeMismatch`. -/
def valueEq : Value → Value → Except EvalError Bool
  | .vbool a, .vbool b => .ok (a == b)
  | .vstr a, .vstr b => .ok (a == b)
  | .vint a, .vint b => .ok (a == b)
  | .vint a, .vdouble b => .ok ((a : Rat) == b)
  | .vdouble a, .vint b => .ok (a == (b : Rat))
  | .vdouble a, .vdouble b => .ok (a == b)
  | _, _ => .error .typeMismatch

/-- Strict ordering of values: numeric with widening, strings by code
point; `Bool` supports equality only, so ordering it (or mixing
incomparable types) is a `TypeMismatch`. -/
def valueLt : Value → Value → Except EvalError Bool
  | .vstr a, .vstr b => .ok (charListLt a.toList b.toList)
  | .vint a, .vint b => .ok (decide (a < b))
  | .vint a, .vdouble b => .ok (decide ((a : Rat) < b))
  | .vdouble a, .vint b => .ok (decide (a < (b : Rat)))
  | .vdouble a, .vdouble b => .ok (decide (a < b))
  | _, _ => .error .typeMismatch

/-- Non-strict ordering of values, mirroring `valueLt`. -/
def valueLe : Value → Value → Except EvalError Bool
  | .vstr a, .vstr b => .ok (charListLt a.toList b.toList || a == b)
  | .vint a, .vint b => .ok (decide (a ≤ b))
  | .vint a, .vdouble b => .ok (decide ((a : Rat) ≤ b))
  | .vdouble a, .vint b => .ok (decide (a ≤ (b : Rat)))
  | .vdouble a, .vdouble b => .ok (decide (a ≤ b))
  | _, _ => .error .typeMismatch

/-- Truncation of a rational toward zero. -/
def ratTrunc (q : Rat) : Int :=
  q.num.tdiv q.den

/-- The five arithmetic operators of the expression language. -/
inductive BinArith where
  | plus
  | subtract
  | multiply
  | divide
  | modulo

/-- Arithmetic on numeric operands with `Int`-to-`Double` widening;
non-numeric operands are a `TypeMismatch`, division/modulo by zero an
`ArithmeticError`.  Integer division/modulo truncate toward zero;
double modulo is the truncating remainder. -/
def applyArith : BinArith → Value → Value → Except EvalError Value
  | op, .vint a, .vint b =>
      match op with
      | .plus => .ok (.vint (a + b))
      | .subtract => .ok (.vint (a - b))
      | .multiply => .ok (.vint (a * b))
      | .divide => if b = 0 then .error .arithmeticError else .ok (.vint (a.tdiv b))
      | .modulo => if b = 0 then .error .arithmeticError else .ok (.vint (a.tmod b))
  | op, .vint a, .vdouble b => applyArithRat op a b
  | op, .vdouble a, .vint b => applyArithRat op a b
  | op, .vdouble a, .vdouble b => applyArithRat op a b
  | _, _, _ => .error .typeMismatch
where
  /-- The widened (`Double`) case. -/
  applyArithRat (op : BinArith) (a b : Rat) : Except EvalError Value :=
    match op with
    | .plus => .ok (.vdouble (a + b))
    | .subtract => .ok (.vdouble (a - b))
    | .multiply => .ok (.vdouble (a * b))
    | .divide => if b = 0 then .error .arithmeticError else .ok (.vdouble (a / b))
    | .modulo => if b = 0 then .error .arithmeticError
                 else .ok (.vdouble (a - b * (ratTrunc (a / b) : Rat)))

/-- The three bitwise operators. -/
inductive BinBit where
  | band
  | bor
  | bxor

/-- Bitwise operators: `Int` operands only. -/
def applyBit : BinBit → Value → Value → Except EvalError Value
  | .band, .vint a, .vint b => .ok (.vint (Int.land a b))
  | .bor, .vint a, .vint b => .ok (.vint (Int.lor a b))
  | .bxor, .vint a, .vint b => .ok (.vint (Int.xor a b))
  | _, _, _ => .error .typeMismatch

/-- Does `needle` occur as a contiguous substring of the character
list? -/
def charListContains (needle : List Char) : List Char → Bool
  | [] => needle.isEmpty
  | h :: t => needle.isPrefixOf (h :: t) || charListContains needle t

/-- The three string predicates (`left` = haystack, `right` = needle);
defined only for `String` operands. -/
inductive BinStr where
  | contains
  | startsWith
  | endsWith

/-- Apply a string predicate. -/
def applyStr : BinStr → Value → Value → Except EvalError Value
  | .contains, .vstr a, .vstr b => .ok (.vbool (charListContains b.toList a.toList))
  | .startsWith, .vstr a, .vstr b => .ok (.vbool (b.toList.isPrefixOf a.toList))
  | .endsWith, .vstr a, .vstr b => .ok (.vbool (List.isSuffixOf b.toList a.toList))
  | _, _, _ => .error .typeMismatch

/-- Modelled from the spec: §4.4 Expression Evaluator, absent from
`src/`.  Pure recursive evaluation of an `Expression` against a row
context (column-name-to-value bindings):
`Constant` → its literal value; `ColumnReference` → the bound value, or
`UnknownColumn`; `Not` → boolean negation; `NotNull{casted, default}` →
`casted`, or `default` only when `casted` is null; comparisons with
numeric widening; arithmetic with widening and `ArithmeticError` on
division/modulo by zero; `And`/`Or` short-circuit on the left operand;
bitwise on `Int` only; string predicates; `Conditional` evaluates the
condition and then exactly the taken branch. -/
def eval (row : List (String × Value)) : Expression → Except EvalError Value
  | .constant c => c.toValue
  | .columnReference r =>
      match row.lookup r.column with
      | some v => .ok v
      | none => .error .unknownColumn
  | .not e => do
      let b ← (← eval row e).asBool
      .ok (.vbool (!b))
  | .notNull c d => do
      match ← eval row c with
      | .vnull => eval row d
      | v => .ok v
  | .equals l r => do .ok (.vbool (← valueEq (← eval row l) (← eval row r)))
  | .lessThan l r => do .ok (.vbool (← valueLt (← eval row l) (← eval row r)))
  | .greaterThan l r => do .ok (.vbool (← valueLt (← eval row r) (← eval row l)))
  | .lessThanOrEqual l r => do .ok (.vbool (← valueLe (← eval row l) (← eval row r)))
  | .greaterThanOrEqual l r => do .ok (.vbool (← valueLe (← eval row r) (← eval row l)))
  | .plus l r => do applyArith .plus (← eval row l) (← eval row r)
  | .subtract l r => do applyArith .subtract (← eval row l) (← eval row r)
  | .divide l r => do applyArith .divide (← eval row l) (← eval row r)
  | .multiply l r => do applyArith .multiply (← eval row l) (← eval row r)
  | .modulo l r => do applyArith .modulo (← eval row l) (← eval row r)
  | .and l r => do
      if ← (← eval row l).asBool then .ok (.vbool (← (← eval row r).asBool))
      else .ok (.vbool false)
  | .or l r => do
      if ← (← eval row l).asBool then .ok (.vbool true)
      else .ok (.vbool (← (← eval row r).asBool))
  | .bitAnd l r => do applyBit .band (← eval row l) (← eval row r)
  | .bitOr l r => do applyBit .bor (← eval row l) (← eval row r)
  | .bitXOr l r => do applyBit .bxor (← eval row l) (← eval row r)
  | .contains l r => do applyStr .contains (← eval row l) (← eval row r)
  | .startsWith l r => do applyStr .startsWith (← eval row l) (← eval row r)
  | .endsWith l r => do applyStr .endsWith (← eval row l) (← eval row r)
  | .conditional c t f => do
      if ← (← eval row c).asBool then eval row t else eval row f

/-! ## Claims C6 and C7 -/

/-- C6: `Or` short-circuits — the left operand is evaluated first, and
whenever it yields `true` the whole `Or` yields `true` for *every* right
operand, which is therefore never evaluated; in particular
`Or{left: Constant(true), right: Divide{left: 1, right: 0}}` evaluates
to `true` even though the right operand alone would raise
`ArithmeticError`. -/
theorem C6_or_short_circuit :
    (∀ (row : List (String × Value)) (l r : Expression),
        eval row l = .ok (.vbool true) → eval row (.or l r) = .ok (.vbool true)) ∧
    eval [] (.or (.constant (.bool true))
        (.divide (.constant (.int 1)) (.constant (.int 0)))) = .ok (.vbool true) ∧
    eval [] (.divide (.constant (.int 1)) (.constant (.int 0)))
      = .error .arithmeticError := by
  have hgen : ∀ (row : List (String × Value)) (l r : Expression),
      eval row l = .ok (.vbool true) → eval row (.or l r) = .ok (.vbool true) := by
    intro row l r hl
    simp [eval, hl, Value.asBool, Bind.bind, Except.bind]
  exact ⟨hgen, hgen [] _ _ rfl, rfl⟩

/-- C6 (witness): the general short-circuit rule applied to the claim's
concrete example. -/
theorem C6_or_short_circuit_witness :
    eval [] (.constant (.bool true)) = .ok (.vbool true) ∧
    eval [] (.or (.constant (.bool true))
        (.divide (.constant (.int 1)) (.constant (.int 0)))) = .ok (.vbool true) :=
  ⟨rfl, C6_or_short_circuit.1 [] _ _ rfl⟩

/-- C7: `Conditional` evaluates its condition (which must coerce to
`Bool`) and then returns the value of exactly the taken branch — the
result coincides with evaluating that branch alone, for every untaken
branch, so a failure there never surfaces; in particular
`Conditional{condition: false, true_path: Divide{.., 0},
false_path: Constant(Int(7))}` evaluates to `7` without error. -/
theorem C7_conditional_short_circuit :
    (∀ (row : List (String × Value)) (c t f : Expression),
        eval row c = .ok (.vbool true) → eval row (.conditional c t f) = eval row t) ∧
    (∀ (row : List (String × Value)) (c t f : Expression),
        eval row c = .ok (.vbool false) → eval row (.conditional c t f) = eval row f) ∧
    eval [] (.conditional (.constant (.bool false))
        (.divide (.constant (.int 1)) (.constant (.int 0)))
        (.constant (.int 7))) = .ok (.vint 7) := by
  refine ⟨fun row c t f hc => ?_, fun row c t f hc => ?_, rfl⟩ <;>
    simp [eval, hc, Value.asBool, Bind.bind, Except.bind]

/-- C7 (witness): the false-branch rule applied to the claim's concrete
example. -/
theorem C7_conditional_short_circuit_witness :
    eval [] (.constant (.bool false)) = .ok (.vbool false) ∧
    eval [] (.conditional (.constant (.bool false))
        (.divide (.constant (.int 1)) (.constant (.int 0)))
        (.constant (.int 7))) = eval [] (.constant (.int 7)) :=
  ⟨rfl, C7_conditional_short_circuit.2.1 [] _ _ _ rfl⟩

/-! ## Validation Gate and Transaction Executor (spec §4.2, §4.5)

Modelled from the spec: `src/lib.rs` documents — but does not implement
— the compatibility gate ("an implementation MUST disregard ALL
transactions" on any mismatch) and the executor's skip-on-failure rule
("if statement 1 executes fine, but 2 throws an error, 3 and 4 MUST be
skipped").  The backend (schema introspection, type-compatibility
predicate, statement execution, transaction scopes) is the spec's
injected external collaborator, modelled as oracles. -/

/-- Modelled from the spec (§4.2, §6): the backend-supplied live-schema
snapshot — database → table → column-name → native type descriptor
(descriptors kept opaque as strings) — plus the backend's
type-compatibility predicate. -/
structure LiveSchema where
  snapshot : List (String × List (String × List (String × String)))
  compatible : Ty → String → Bool

/-- The schema incompatibilities the Validation Gate records (§4.2). -/
inductive Incompatibility where
  | missingDatabase (db : String)
  | missingTable (db table : String)
  | missingColumn (db table column : String)
  | typeIncompatible (db table column : String)

/-- Check one declared column against the live table's column set. -/
def checkColumn (ls : LiveSchema) (db table : String)
    (live : List (String × String)) (c : Column) : List Incompatibility :=
  match live.lookup c.name with
  | none => [.missingColumn db table c.name]
  | some desc => if ls.compatible c._type desc then [] else [.typeIncompatible db table c.name]

/-- Check one declared table against the live database's table set. -/
def checkTable (ls : LiveSchema) (db : String)
    (live : List (String × List (String × String))) (t : Table) : List Incompatibility :=
  match live.lookup t.name with
  | none => [.missingTable db t.name]
  | some cols => t.columns.flatMap (checkColumn ls db t.name cols)

/-- Check one declared database against the snapshot. -/
def checkDatabase (ls : LiveSchema) (d : Database) : List Incompatibility :=
  match ls.snapshot.lookup d.name with
  | none => [.missingDatabase d.name]
  | some tables => d.tables.flatMap (checkTable ls d.name tables)

/-- Modelled from the spec: §4.2 Validation Gate, absent from `src/` —
the one-shot whole-file compatibility check, recording every
`MissingDatabase` / `MissingTable` / `MissingColumn` / type
incompatibility between the declared schema and the live snapshot. -/
def validationGate (ls : LiveSchema) (f : DefinitionFile) : List Incompatibility :=
  f.databases.flatMap (checkDatabase ls)

/-- Modelled from the spec (§6): the statement execution backend and
transaction scope provider.  Whether the delegated backend operation
for the statement at a given index succeeds is an oracle (this folds in
backend errors and per-row filter evaluation failures, which the spec
treats alike: both fail the statement). -/
structure Backend where
  execOk : Nat → Statement → Bool
  supportsRollback : Bool

/-- The execution condition a statement carries, if any. -/
def Statement.executionCondition : Statement → Option Expression
  | .noOp _ => none
  | .select v => v.execution_condition
  | .delete v => v.execution_condition
  | .insert v => v.execution_condition
  | .update v => v.execution_condition

/-- What processing one statement did (§4.5 steps 1-6). -/
inductive StepResult where
  | ran
  | skipped
  | failed
deriving DecidableEq

/-- Modelled from the spec (§4.5 steps 1-6): process one statement — the
execution condition, when present, is evaluated with no row context and
must coerce to `Bool` (an evaluation failure fails the statement); when
it is `false` the statement is skipped as a non-failure no-op; otherwise
the resolved operation is delegated to the backend, whose failure fails
the statement. -/
def stepStatement (b : Backend) (idx : Nat) (s : Statement) : StepResult :=
  match s.executionCondition with
  | some cond =>
      match eval [] cond with
      | .error _ => .failed
      | .ok v =>
          match v.asBool with
          | .error _ => .failed
          | .ok false => .skipped
          | .ok true => if b.execOk idx s then .ran else .failed
  | none => if b.execOk idx s then .ran else .failed

/-- Modelled from the spec (§4.5): iterate statements strictly in
declared order, starting at index `start`; the first failure stops the
iteration — every later statement is never attempted.  Returns the
statements actually attempted (reached) and whether a failure
occurred. -/
def runStatements (b : Backend) : Nat → List Statement → List Statement × Bool
  | _, [] => ([], false)
  | idx, s :: rest =>
      match stepStatement b idx s with
      | .failed => ([s], true)
      | _ =>
          let r := runStatements b (idx + 1) rest
          (s :: r.1, r.2)

/-- The terminal state of one transaction (§4.5). -/
inductive TxOutcome where
  | committed
  | partiallyExecutedAndRolledBack
  | partiallyExecutedNotRolledBack
  | unresolvedDatabase
deriving DecidableEq

/-- Modelled from the spec (§4.5): run one transaction — resolve its
`DatabaseReference` against the validated Schema Model (failing before
any statement when unresolved), iterate the statements with
skip-on-failure, and on failure roll the scope back exactly when the
backend supports rollback. -/
def runTransaction (b : Backend) (schema : List Database) (t : Transaction) :
    List Statement × TxOutcome :=
  if schema.any (fun d => d.name == t.database.database) then
    match runStatements b 0 t.statements with
    | (as, false) => (as, .committed)
    | (as, true) =>
        (as, if b.supportsRollback then .partiallyExecutedAndRolledBack
             else .partiallyExecutedNotRolledBack)
  else ([], .unresolvedDatabase)

/-- The report of processing a whole file. -/
structure FileReport where
  accepted : Bool
  incompatibilities : List Incompatibility
  transactionReports : List (List Statement × TxOutcome)

/-- Modelled from the spec (§2, §4.2, §4.5): process a `DefinitionFile`
— the Validation Gate runs once, before anything executes; any recorded
incompatibility rejects the entire file and no transaction runs;
otherwise the transactions run in declared order, independently of one
another. -/
def processFile (ls : LiveSchema) (b : Backend) (f : DefinitionFile) : FileReport :=
  match validationGate ls f with
  | [] => { accepted := true, incompatibilities := [],
            transactionReports := f.transactions.map (runTransaction b f.databases) }
  | incs => { accepted := false, incompatibilities := incs, transactionReports := [] }

/-- How many statements the processing of the file actually attempted. -/
def FileReport.executedCount (r : FileReport) : Nat :=
  (r.transactionReports.map fun p => p.1.length).sum

/-! ## Claims C1 and C2 -/

/-- C1: whenever the Validation Gate records at least one schema
incompatibility (`MissingDatabase`, `MissingTable`, `MissingColumn` or a
type incompatibility) anywhere in the file, processing executes exactly
zero statements: the whole file is rejected before any side effect, not
merely the transactions referencing the offending database or table. -/
theorem C1_whole_file_rejection (ls : LiveSchema) (b : Backend) (f : DefinitionFile)
    (inc : Incompatibility) (h : inc ∈ validationGate ls f) :
    (processFile ls b f).executedCount = 0 ∧ (processFile ls b f).accepted = false := by
  cases hv : validationGate ls f with
  | nil => rw [hv] at h; cases h
  | cons i is => simp [processFile, hv, FileReport.executedCount]

/-- A live schema knowing nothing at all. -/
def emptyLive : LiveSchema := { snapshot := [], compatible := fun _ _ => true }

/-- A backend that would happily run everything. -/
def permissiveBackend : Backend := { execOk := fun _ _ => true, supportsRollback := true }

/-- C1 (witness): `sampleFile` declares database `"app"`, missing from
the empty snapshot, and carries five statements; against a backend that
would run everything, zero statements execute. -/
theorem C1_whole_file_rejection_witness :
    Incompatibility.missingDatabase "app" ∈ validationGate emptyLive sampleFile ∧
    (processFile emptyLive permissiveBackend sampleFile).executedCount = 0 := by
  have hm : Incompatibility.missingDatabase "app" ∈ validationGate emptyLive sampleFile := by
    have hv : validationGate emptyLive sampleFile = [.missingDatabase "app"] := rfl
    rw [hv]
    exact List.mem_singleton.mpr rfl
  exact ⟨hm, (C1_whole_file_rejection emptyLive permissiveBackend sampleFile _ hm).1⟩

theorem runStatements_stops (b : Backend) (ss : List Statement) :
    ∀ (start i : Nat) (hi : i < ss.length),
      stepStatement b (start + i) (ss.get ⟨i, hi⟩) = .failed →
      (∀ j (hj : j < ss.length), j < i → stepStatement b (start + j) (ss.get ⟨j, hj⟩) ≠ .failed) →
      runStatements b start ss = (ss.take (i + 1), true) := by
  induction ss with
  | nil => intro start i hi; cases hi
  | cons s rest ih =>
      intro start i hi hfail hok
      cases i with
      | zero =>
          simp only [List.get] at hfail
          simp [runStatements, Nat.add_zero] at hfail ⊢
          simp [hfail]
      | succ k =>
          have h0 : stepStatement b start s ≠ .failed := by
            have := hok 0 (by simp) (Nat.succ_pos k)
            simpa using this
          have hrest : runStatements b (start + 1) rest = (rest.take (k + 1), true) := by
            refine ih (start + 1) k (by simpa using hi) ?_ ?_
            · have : start + 1 + k = start + (k + 1) := by omega
              rw [this]
              simpa [List.get] using hfail
            · intro j hj hlt
              have : start + 1 + j = start + (j + 1) := by omega
              rw [this]
              have := hok (j + 1) (by simpa using hj) (by omega)
              simpa [List.get] using this
          cases hs : stepStatement b start s <;>
            simp_all [runStatements, List.take]

/-- C2: in every transaction whose database resolves, if the statement
at position `i` fails (backend error or expression-evaluation error)
while no earlier statement failed, then exactly the statements up to and
including position `i` are attempted — no later statement is ever
attempted — and the transaction scope is rolled back precisely when the
backend supports rollback. -/
theorem C2_skip_on_failure (b : Backend) (schema : List Database) (t : Transaction)
    (i : Nat) (hi : i < t.statements.length)
    (hfail : stepStatement b i (t.statements.get ⟨i, hi⟩) = .failed)
    (hok : ∀ j (hj : j < t.statements.length), j < i →
        stepStatement b j (t.statements.get ⟨j, hj⟩) ≠ .failed)
    (hdb : schema.any (fun d => d.name == t.database.database) = true) :
    (runTransaction b schema t).1 = t.statements.take (i + 1) ∧
    (runTransaction b schema t).2
      = (if b.supportsRollback then TxOutcome.partiallyExecutedAndRolledBack
         else TxOutcome.partiallyExecutedNotRolledBack) := by
  have hrun : runStatements b 0 t.statements = (t.statements.take (i + 1), true) := by
    have := runStatements_stops b t.statements 0 i hi
    simp only [Nat.zero_add] at this
    exact this hfail (fun j hj hlt => by simpa using hok j hj hlt)
  simp [runTransaction, hdb, hrun]

/-- The spec's own four-statement example: statement 0 succeeds,
statement 1 fails at the backend, statements 2 and 3 follow. -/
def demoTx : Transaction :=
  { database := { database := "app" },
    statements := [.noOp {}, .noOp {}, .noOp {}, .noOp {}] }

/-- A backend that fails exactly the statement at index 1 and supports
rollback. -/
def failAtOne : Backend := { execOk := fun idx _ => !(idx == 1), supportsRollback := true }

/-- C2 (witness): on the spec's `[S1(ok), S2(fails), S3, S4]` example,
exactly the first two statements are attempted and the transaction is
rolled back. -/
theorem C2_skip_on_failure_witness :
    (runTransaction failAtOne [{ name := "app", tables := [] }] demoTx).1
        = demoTx.statements.take 2 ∧
    (runTransaction failAtOne [{ name := "app", tables := [] }] demoTx).2
        = (if failAtOne.supportsRollback then TxOutcome.partiallyExecutedAndRolledBack
           else TxOutcome.partiallyExecutedNotRolledBack) := by
  refine C2_skip_on_failure failAtOne [{ name := "app", tables := [] }] demoTx 1
    (by decide) (by decide) ?_ (by decide)
  intro j hj hlt
  have hj0 : j = 0 := by omega
  subst hj0
  have hget : demoTx.statements.get ⟨0, hj⟩ = .noOp {} := rfl
  rw [hget]
  decide

end DbJson
